import Mathlib

/-!
# Verification of the serverless image-upload service

Shallow embedding of the Python image service (validators, upload saga,
get/list/delete orchestrators, pagination token codec) together with
theorems settling the specification claims.

Conventions of the embedding:
* a Python `str` is a Lean `String`; helper functions `pyStrip`, `pySplit`,
  `pyLower`, `pyJoinCh` model Python's `str.strip`, `str.split`, `str.lower`
  and `','.join` over the underlying character list;
* Python dicts holding a fixed field set become structures; the two
  success/error result dicts become inductive result types carrying
  exactly the fields the code puts in them;
* calls into the storage backends (S3, DynamoDB) are modelled by explicit
  state plus boolean outcome oracles, since each backend call either
  succeeds or fails atomically;
* library calls outside the repository (PIL decoding, presigned URLs)
  are oracle parameters.
-/

/-- Characters Python's `str.strip()` removes (Python whitespace). -/
def pyIsSpace (c : Char) : Bool :=
  c == ' ' || c == '\t' || c == '\n' || c == '\r' || c == '\x0b' || c == '\x0c'

/-- Strip Python whitespace from both ends of a character list. -/
def stripList (cs : List Char) : List Char :=
  ((cs.dropWhile pyIsSpace).reverse.dropWhile pyIsSpace).reverse

/-- Model of Python `str.strip()`. -/
def pyStrip (s : String) : String :=
  String.mk (stripList s.toList)

/-- Model of Python `str.split(sep)` (single-character separator) over
character lists: splitting never yields the empty list. -/
def pySplitCh (sep : Char) : List Char → List (List Char)
  | [] => [[]]
  | c :: rest =>
    match pySplitCh sep rest with
    | [] => [[]]
    | g :: gs => if c = sep then [] :: g :: gs else (c :: g) :: gs

/-- Model of Python `str.split(sep)`. -/
def pySplit (sep : Char) (s : String) : List String :=
  (pySplitCh sep s.toList).map String.mk

/-- Model of Python `str.lower()` (the source only lowercases ASCII data). -/
def pyLower (s : String) : String :=
  String.mk (s.toList.map Char.toLower)

/-- Model of Python `sep.join(parts)` over character lists. -/
def pyJoinCh (sep : Char) : List (List Char) → List Char
  | [] => []
  | [g] => g
  | g :: gs => g ++ sep :: pyJoinCh sep gs

/-- Model of Python `','.join(tags)` used by the upload serialization. -/
def joinComma (ts : List String) : String :=
  String.mk (pyJoinCh ',' (ts.map String.toList))

/-- `ImageValidator.ALLOWED_EXTENSIONS` from `src/utils/validators.py`. -/
def ALLOWED_EXTENSIONS : List String := ["jpg", "jpeg", "png", "gif", "webp"]

namespace ImageValidator

def MAX_FILE_SIZE : Nat := 10 * 1024 * 1024

def MIN_FILE_SIZE : Nat := 1024

def MAX_DIMENSION : Nat := 4000

def MIN_DIMENSION : Nat := 50

/-- `ImageValidator.validate_file_extension`: empty names are falsy and fail;
otherwise the name is lowercased, split on `.`, and the last segment must be
an allowed extension (Python `filename.lower().split('.')[-1]`). -/
def validate_file_extension (filename : String) : Bool :=
  if filename = "" then false
  else ALLOWED_EXTENSIONS.contains ((pySplit '.' (pyLower filename)).getLastD "")

/-- `ImageValidator.validate_file_size`. -/
def validate_file_size (file_size : Nat) : Bool :=
  MIN_FILE_SIZE ≤ file_size && file_size ≤ MAX_FILE_SIZE

/-- Result dict of `ImageValidator.validate_image_content` (the unused
`mode` entry is elided). -/
inductive ContentValidation where
  | ok (width height : Nat) (format : String)
  | invalid (error : String)
deriving DecidableEq, Repr

/-- `ImageValidator.validate_image_content`, parameterized by the PIL
decoding result for the buffer: `none` models `Image.open` raising (the
model elides the exception text interpolated into the message), and
`some (w, h, fmt)` models a decoded image of size `w × h` whose
`image.format` attribute is `fmt` (`none` for a format-less image). -/
def validate_image_content (decoded : Option (Nat × Nat × Option String)) :
    ContentValidation :=
  match decoded with
  | none => .invalid "Invalid image file"
  | some (w, h, fmt) =>
    let format_type := match fmt with
      | some f => pyLower f
      | none => "unknown"
    if w < MIN_DIMENSION || h < MIN_DIMENSION || w > MAX_DIMENSION || h > MAX_DIMENSION then
      .invalid "Image dimensions must be between 50px and 4000px"
    else
      .ok w h format_type

end ImageValidator

/-- Pass/fail result dict of the `MetadataValidator` checks. -/
inductive VResult where
  | valid
  | invalid (error : String)
deriving DecidableEq, Repr

namespace MetadataValidator

def MAX_TITLE_LENGTH : Nat := 200

def MAX_DESCRIPTION_LENGTH : Nat := 1000

def MAX_TAGS_COUNT : Nat := 10

def MAX_TAG_LENGTH : Nat := 50

/-- `MetadataValidator.validate_title`: `None`/`""` are falsy and valid;
a whitespace-only title is rejected, then titles longer than 200. -/
def validate_title (title : Option String) : VResult :=
  match title with
  | none => .valid
  | some t =>
    if t = "" then .valid
    else if (pyStrip t).length = 0 then .invalid "Title cannot be empty"
    else if t.length > MAX_TITLE_LENGTH then
      .invalid "Title must be less than 200 characters"
    else .valid

/-- `MetadataValidator.validate_description`. -/
def validate_description (description : Option String) : VResult :=
  match description with
  | none => .valid
  | some d =>
    if d = "" then .valid
    else if d.length > MAX_DESCRIPTION_LENGTH then
      .invalid "Description must be less than 1000 characters"
    else .valid

/-- A character of the tag character class `[a-zA-Z0-9\s\-_]`. -/
def tagCharOk (c : Char) : Bool :=
  ('a' ≤ c && c ≤ 'z') || ('A' ≤ c && c ≤ 'Z') || ('0' ≤ c && c ≤ '9') ||
    pyIsSpace c || c == '-' || c == '_'

/-- Python `re.match(r'^[a-zA-Z0-9\s\-_]+$', tag)`: at least one character,
all from the class (a trailing newline needs no special case here because
`\n` is itself in `\s`). -/
def matchTagClass (s : String) : Bool :=
  !s.toList.isEmpty && s.toList.all tagCharOk

/-- A character of the user-id character class `[a-zA-Z0-9\-_]`. -/
def userCharOk (c : Char) : Bool :=
  ('a' ≤ c && c ≤ 'z') || ('A' ≤ c && c ≤ 'Z') || ('0' ≤ c && c ≤ '9') ||
    c == '-' || c == '_'

/-- Python `re.match(r'^[a-zA-Z0-9\-_]+$', user_id)`.  Python's `$` also
matches just before one trailing newline, so a user id ending in a single
`\n` after valid characters matches as well. -/
def matchUserClass (s : String) : Bool :=
  let cs := s.toList
  !cs.isEmpty &&
    (cs.all userCharOk ||
      (cs.getLast? == some '\n' && !cs.dropLast.isEmpty && cs.dropLast.all userCharOk))

/-- The per-tag loop body of `MetadataValidator.validate_tags` (the
`isinstance` checks are discharged by typing). -/
def checkTags : List String → VResult
  | [] => .valid
  | tag :: rest =>
    if (pyStrip tag).length = 0 then .invalid "Tags cannot be empty"
    else if tag.length > MAX_TAG_LENGTH then
      .invalid "Each tag must be less than 50 characters"
    else if !matchTagClass tag then
      .invalid "Tags can only contain letters, numbers, spaces, hyphens, and underscores"
    else checkTags rest

/-- `MetadataValidator.validate_tags`: `None` and `[]` are falsy and valid. -/
def validate_tags (tags : Option (List String)) : VResult :=
  match tags with
  | none => .valid
  | some [] => .valid
  | some ts =>
    if ts.length > MAX_TAGS_COUNT then .invalid "Maximum 10 tags allowed"
    else checkTags ts

/-- `MetadataValidator.validate_user_id` (the argument is a `str` by the
service's typing, so the `isinstance` branch is discharged). -/
def validate_user_id (user_id : String) : VResult :=
  if user_id = "" then .invalid "User ID is required"
  else if (pyStrip user_id).length = 0 then .invalid "User ID cannot be empty"
  else if !matchUserClass user_id then
    .invalid "User ID can only contain letters, numbers, hyphens, and underscores"
  else .valid

end MetadataValidator

section ExtensionClaims

/-- Splitting a separator-free character list yields the whole list. -/
theorem pySplitCh_sep_free (sep : Char) :
    ∀ cs : List Char, (∀ c ∈ cs, c ≠ sep) → pySplitCh sep cs = [cs] := by
  intro cs h
  induction cs with
  | nil => rfl
  | cons c rest ih =>
    have hc : c ≠ sep := h c (by simp)
    have hrest : pySplitCh sep rest = [rest] := ih (fun x hx => h x (by simp [hx]))
    simp [pySplitCh, hrest, hc]

/-- C6 (counterexample): the filename `"png"` contains no `.` yet passes
`validate_file_extension`, because Python's `split('.')[-1]` of a dot-free
name is the whole name. -/
theorem c6_dotfree_passes :
    ImageValidator.validate_file_extension "png" = true ∧
      "png".toList.all (fun c => c ≠ '.') = true := by
  constructor
  · rfl
  · decide

/-- For a valid code point, `Char.ofNat` recovers exactly that code point. -/
theorem char_toNat_ofNat (n : Nat) (h : n.isValidChar) : (Char.ofNat n).toNat = n := by
  unfold Char.ofNat
  rw [dif_pos h]
  simp [Char.ofNatAux, Char.toNat, UInt32.toNat, UInt32.ofNat']

/-- Lowercasing cannot introduce a `.` character. -/
theorem pyLower_dot_free (filename : String)
    (hfree : ∀ c ∈ filename.toList, c ≠ '.') :
    ∀ c ∈ (pyLower filename).toList, c ≠ '.' := by
  intro c hc
  simp only [pyLower, String.toList] at hc
  rcases List.mem_map.mp hc with ⟨d, hd, rfl⟩
  intro h
  apply hfree d hd
  unfold Char.toLower at h
  by_cases hr : 65 ≤ d.toNat ∧ d.toNat ≤ 90
  · rw [if_pos hr] at h
    obtain ⟨hr1, hr2⟩ := hr
    have hv : (d.toNat + 32).isValidChar := Or.inl (by omega)
    have h46 := congrArg Char.toNat h
    rw [char_toNat_ofNat _ hv] at h46
    have : ('.').toNat = 46 := by decide
    omega
  · rwa [if_neg hr] at h

/-- C6 (amended): `validate_file_extension` passes exactly when the filename
is non-empty and the lowercased segment after the last `.` — the whole
lowercased name when there is no `.` — is one of jpg/jpeg/png/gif/webp;
the empty filename fails, and a dot-free filename passes exactly when the
whole lowercased name is itself an allowed extension. -/
theorem c6_extension_amended (filename : String) :
    (ImageValidator.validate_file_extension filename = true ↔
      filename ≠ "" ∧
        ((pySplit '.' (pyLower filename)).getLastD "") ∈ ALLOWED_EXTENSIONS) ∧
    (ImageValidator.validate_file_extension "" = false) ∧
    ((∀ c ∈ filename.toList, c ≠ '.') →
      (ImageValidator.validate_file_extension filename = true ↔
        filename ≠ "" ∧ pyLower filename ∈ ALLOWED_EXTENSIONS)) := by
  refine ⟨?_, rfl, ?_⟩
  · unfold ImageValidator.validate_file_extension
    by_cases h : filename = "" <;> simp [h, List.elem_iff]
  · intro hfree
    have hlow := pyLower_dot_free filename hfree
    unfold ImageValidator.validate_file_extension
    have hsplit : pySplit '.' (pyLower filename) = [pyLower filename] := by
      unfold pySplit
      rw [pySplitCh_sep_free '.' (pyLower filename).toList hlow]
      simp
    by_cases h : filename = "" <;> simp [h, hsplit, List.elem_iff]

/-- Witness for C6 (amended): instantiation at `"photo.JPG"`. -/
theorem c6_extension_amended_witness :
    ImageValidator.validate_file_extension "photo.JPG" = true :=
  ((c6_extension_amended "photo.JPG").1).mpr (by constructor <;> decide)

/-- C8 (counterexample): the one-space title has length `1 ≤ 200` but is
rejected (`"Title cannot be empty"`), so not every present title of length
at most 200 is accepted. -/
theorem c8_blank_title_rejected :
    MetadataValidator.validate_title (some " ") =
        VResult.invalid "Title cannot be empty" ∧
      (" ").length ≤ 200 := by
  constructor
  · rfl
  · decide

/-- C8 (amended): `validate_title` passes exactly when the title is absent,
empty, or non-blank (non-empty after stripping whitespace) with length at
most 200. -/
theorem c8_title_amended (title : Option String) :
    MetadataValidator.validate_title title = VResult.valid ↔
      (title = none ∨ title = some "" ∨
        ∃ s, title = some s ∧ (pyStrip s).length ≠ 0 ∧
          s.length ≤ MetadataValidator.MAX_TITLE_LENGTH) := by
  cases title with
  | none => simp [MetadataValidator.validate_title]
  | some t =>
    simp only [MetadataValidator.validate_title]
    split_ifs with h0 h1 h2
    · subst h0
      simp
    · constructor
      · intro h
        exact absurd h (by simp)
      · rintro (h | h | ⟨s, hs, hstrip, _⟩)
        · exact absurd h (by simp)
        · exact absurd (Option.some.inj h) h0
        · cases Option.some.inj hs
          exact absurd h1 hstrip
    · constructor
      · intro h
        exact absurd h (by simp)
      · rintro (h | h | ⟨s, hs, _, hle⟩)
        · exact absurd h (by simp)
        · exact absurd (Option.some.inj h) h0
        · cases Option.some.inj hs
          omega
    · constructor
      · intro _
        exact Or.inr (Or.inr ⟨t, rfl, h1, by omega⟩)
      · intro _
        rfl

/-- Witness for C8 (amended): the title `"hello"` is accepted. -/
theorem c8_title_amended_witness :
    MetadataValidator.validate_title (some "hello") = VResult.valid :=
  (c8_title_amended (some "hello")).mpr
    (Or.inr (Or.inr ⟨"hello", rfl, by decide, by decide⟩))

end ExtensionClaims

/-! ## Data model (`src/models/image_model.py`) and storage state -/

/-- `ImageUploadRequest` (pydantic model, plain data carrier). -/
structure ImageUploadRequest where
  title : Option String
  description : Option String
  tags : Option (List String)
  user_id : String
deriving DecidableEq, Repr

/-- `ImageMetadata` (pydantic model for DynamoDB, plain data carrier). -/
structure ImageMetadata where
  image_id : String
  created_at : String
  user_id : String
  title : Option String
  description : Option String
  tags : Option (List String)
  file_name : String
  file_size : Nat
  content_type : String
  width : Nat
  height : Nat
  format : String
  s3_key : String
  is_deleted : Bool
  updated_at : Option String
deriving DecidableEq, Repr

/-- `ImageMetadata.create_new`.  The generated uuid, the creation instant and
the `%Y/%m` date path are oracle arguments (`uuid.uuid4()` /
`datetime.utcnow()` are environment calls). -/
def ImageMetadata.create_new (newId now datePath : String)
    (upload_request : ImageUploadRequest) (file_name : String) (file_size : Nat)
    (content_type : String) (width height : Nat) (format : String) : ImageMetadata :=
  { image_id := newId
    created_at := now
    user_id := upload_request.user_id
    title := upload_request.title
    description := upload_request.description
    tags := upload_request.tags
    file_name := file_name
    file_size := file_size
    content_type := content_type
    width := width
    height := height
    format := format
    s3_key := "images/" ++ datePath ++ "/" ++ newId ++ "." ++ pyLower format
    is_deleted := false
    updated_at := none }

/-- A DynamoDB item as this service stores it: `ImageMetadata.model_dump()`
with the tag list replaced by the comma-joined string. -/
structure DynamoRecord where
  image_id : String
  created_at : String
  user_id : String
  title : Option String
  description : Option String
  tags : String
  file_name : String
  file_size : Nat
  content_type : String
  width : Nat
  height : Nat
  format : String
  s3_key : String
  is_deleted : Bool
  updated_at : Option String
deriving DecidableEq, Repr

/-- Tag serialization of `ImageService.upload_image` (lines 97–102):
`','.join(tags)` when the dumped tag list is truthy, else `''`. -/
def serializeTags : Option (List String) → String
  | none => ""
  | some [] => ""
  | some ts => joinComma ts

/-- The DynamoDB item written by `upload_image` for a metadata instance. -/
def toDynamoData (m : ImageMetadata) : DynamoRecord :=
  { image_id := m.image_id
    created_at := m.created_at
    user_id := m.user_id
    title := m.title
    description := m.description
    tags := serializeTags m.tags
    file_name := m.file_name
    file_size := m.file_size
    content_type := m.content_type
    width := m.width
    height := m.height
    format := m.format
    s3_key := m.s3_key
    is_deleted := m.is_deleted
    updated_at := m.updated_at }

/-- Joint state of the two storage backends: the set of S3 object keys and
the DynamoDB table contents. -/
structure Stores where
  s3ObjectKeys : List String
  table : List DynamoRecord
deriving DecidableEq, Repr

/-- One backend call issued by the upload saga (the attempt is recorded
whether or not the backend reports success). -/
inductive StoreCall where
  | s3Put (key : String)
  | s3Delete (key : String)
  | dynPut (image_id : String)
deriving DecidableEq, Repr

/-- Oracles for one `upload_image` execution: backend outcomes are
per-call success flags (each call succeeds or fails atomically), `decoded`
is the PIL decoding result, and `newId`/`now`/`datePath` are the uuid and
clock reads. -/
structure UploadEnv where
  s3PutOk : Bool
  s3DeleteOk : Bool
  dynPutOk : Bool
  decoded : Option (Nat × Nat × Option String)
  newId : String
  now : String
  datePath : String

namespace S3Client

/-- `S3Client.upload_image`: on success the key becomes present. -/
def upload_image (ok : Bool) (st : Stores) (key : String) : Bool × Stores :=
  if ok then (true, { st with s3ObjectKeys := key :: st.s3ObjectKeys }) else (false, st)

/-- `S3Client.delete_image`: on success the key is removed. -/
def delete_image (ok : Bool) (st : Stores) (key : String) : Bool × Stores :=
  if ok then (true, { st with s3ObjectKeys := st.s3ObjectKeys.erase key }) else (false, st)

end S3Client

namespace DynamoDBClient

/-- `DynamoDBClient.put_image_metadata`: on success the item is stored
(the service always writes a freshly generated id, so prepending models
the keyed upsert). -/
def put_image_metadata (ok : Bool) (st : Stores) (item : DynamoRecord) : Bool × Stores :=
  if ok then (true, { st with table := item :: st.table }) else (false, st)

end DynamoDBClient

/-- Result dict of `ImageService.upload_image`. -/
inductive UploadResult where
  | success (image_id message : String)
  | failure (error : String)
deriving DecidableEq, Repr

namespace ImageService

/-- `ImageService.upload_image` (`src/services/image_service.py`, lines
30–123): validation pipeline, S3 write, tag serialization, DynamoDB write
with compensating S3 delete on failure.  Besides the result it returns the
final backend state and the list of backend calls attempted, in order. -/
def upload_image (env : UploadEnv) (st : Stores) (file_content : List Nat)
    (filename : String) (upload_request : ImageUploadRequest) :
    UploadResult × Stores × List StoreCall :=
  if !ImageValidator.validate_file_extension filename then
    (.failure "Invalid file extension. Allowed: jpg, jpeg, png, gif, webp", st, [])
  else if !ImageValidator.validate_file_size file_content.length then
    (.failure "File size must be between 1KB and 10MB", st, [])
  else
    match ImageValidator.validate_image_content env.decoded with
    | .invalid e => (.failure e, st, [])
    | .ok width height format =>
      match MetadataValidator.validate_title upload_request.title with
      | .invalid e => (.failure e, st, [])
      | .valid =>
        match MetadataValidator.validate_description upload_request.description with
        | .invalid e => (.failure e, st, [])
        | .valid =>
          match MetadataValidator.validate_tags upload_request.tags with
          | .invalid e => (.failure e, st, [])
          | .valid =>
            match MetadataValidator.validate_user_id upload_request.user_id with
            | .invalid e => (.failure e, st, [])
            | .valid =>
              let image_metadata := ImageMetadata.create_new env.newId env.now env.datePath
                upload_request filename file_content.length ("image/" ++ format)
                width height format
              let put1 := S3Client.upload_image env.s3PutOk st image_metadata.s3_key
              if !put1.1 then
                (.failure "Failed to upload image to storage", put1.2,
                  [.s3Put image_metadata.s3_key])
              else
                let dynamo_data := toDynamoData image_metadata
                let put2 := DynamoDBClient.put_image_metadata env.dynPutOk put1.2 dynamo_data
                if !put2.1 then
                  let del := S3Client.delete_image env.s3DeleteOk put2.2 image_metadata.s3_key
                  (.failure "Failed to store image metadata", del.2,
                    [.s3Put image_metadata.s3_key, .dynPut dynamo_data.image_id,
                      .s3Delete image_metadata.s3_key])
                else
                  (.success image_metadata.image_id "Image uploaded successfully", put2.2,
                    [.s3Put image_metadata.s3_key, .dynPut dynamo_data.image_id])

end ImageService

/-- Whether a content-validation result is the success variant. -/
def isContentOk : ImageValidator.ContentValidation → Bool
  | .ok .. => true
  | .invalid _ => false

/-- All six validation steps of `upload_image` pass. -/
def uploadValidationsOk (env : UploadEnv) (file_content : List Nat)
    (filename : String) (upload_request : ImageUploadRequest) : Bool :=
  ImageValidator.validate_file_extension filename &&
    ImageValidator.validate_file_size file_content.length &&
    isContentOk (ImageValidator.validate_image_content env.decoded) &&
    (MetadataValidator.validate_title upload_request.title == .valid) &&
    (MetadataValidator.validate_description upload_request.description == .valid) &&
    (MetadataValidator.validate_tags upload_request.tags == .valid) &&
    (MetadataValidator.validate_user_id upload_request.user_id == .valid)

/-- The DynamoDB item `upload_image` would write (meaningful when content
validation succeeds; the fallback arm is never reached then). -/
def uploadRecord (env : UploadEnv) (file_content : List Nat)
    (filename : String) (upload_request : ImageUploadRequest) : DynamoRecord :=
  match ImageValidator.validate_image_content env.decoded with
  | .ok width height format =>
    toDynamoData (ImageMetadata.create_new env.newId env.now env.datePath
      upload_request filename file_content.length ("image/" ++ format) width height format)
  | .invalid _ =>
    toDynamoData (ImageMetadata.create_new env.newId env.now env.datePath
      upload_request filename file_content.length "" 0 0 "")

/-- C1: the upload saga is atomic across the two stores.  When all
validations pass: (a) if the S3 put succeeds and the DynamoDB put fails,
the saga issues exactly put / metadata-put / compensating delete, reports
"Failed to store image metadata", and leaves the table unchanged; (b) if
the S3 put fails, no metadata write is attempted and the table is
unchanged; (c) the reported result never depends on the compensating
delete's own outcome; (d) any record in the final table was either already
there or was written after its blob write succeeded, with its blob present
in the final S3 state. -/
theorem c1_upload_saga_atomicity (env : UploadEnv) (st : Stores)
    (file_content : List Nat) (filename : String) (upload_request : ImageUploadRequest)
    (hval : uploadValidationsOk env file_content filename upload_request = true) :
    (env.s3PutOk = true → env.dynPutOk = false →
      (ImageService.upload_image env st file_content filename upload_request).1 =
          .failure "Failed to store image metadata" ∧
        (ImageService.upload_image env st file_content filename upload_request).2.2 =
          [.s3Put (uploadRecord env file_content filename upload_request).s3_key,
            .dynPut (uploadRecord env file_content filename upload_request).image_id,
            .s3Delete (uploadRecord env file_content filename upload_request).s3_key] ∧
        (ImageService.upload_image env st file_content filename upload_request).2.1.table =
          st.table) ∧
    (env.s3PutOk = false →
      (ImageService.upload_image env st file_content filename upload_request).1 =
          .failure "Failed to upload image to storage" ∧
        (∀ i, StoreCall.dynPut i ∉
          (ImageService.upload_image env st file_content filename upload_request).2.2) ∧
        (ImageService.upload_image env st file_content filename upload_request).2.1.table =
          st.table) ∧
    (∀ b, (ImageService.upload_image { env with s3DeleteOk := b } st
        file_content filename upload_request).1 =
      (ImageService.upload_image env st file_content filename upload_request).1) ∧
    (∀ r ∈ (ImageService.upload_image env st file_content filename upload_request).2.1.table,
      r ∈ st.table ∨
        (env.s3PutOk = true ∧ r.s3_key ∈
          (ImageService.upload_image env st file_content filename upload_request).2.1.s3ObjectKeys)) := by
  simp only [uploadValidationsOk, Bool.and_eq_true, beq_iff_eq] at hval
  obtain ⟨⟨⟨⟨⟨⟨hext, hsize⟩, hcontent⟩, htitle⟩, hdesc⟩, htags⟩, huser⟩
    := hval
  cases hcv : ImageValidator.validate_image_content env.decoded with
  | invalid e => rw [hcv] at hcontent; simp [isContentOk] at hcontent
  | ok width height format =>
    simp only [ImageService.upload_image, uploadRecord, hext, hsize, hcv, htitle, hdesc,
      htags, huser, Bool.not_true, Bool.false_eq_true, if_false,
      S3Client.upload_image, DynamoDBClient.put_image_metadata, S3Client.delete_image]
    cases hput : env.s3PutOk with
    | false =>
      simp [hput]
    | true =>
      cases hdyn : env.dynPutOk with
      | false =>
        cases hdel : env.s3DeleteOk <;>
            simp [hput, hdyn, hdel, toDynamoData, ImageMetadata.create_new] <;>
          exact fun r hr => Or.inl hr
      | true =>
        simp [hput, hdyn, toDynamoData, ImageMetadata.create_new]
        exact fun r hr => Or.inl hr

/-- Concrete upload environment: S3 put succeeds, DynamoDB put fails. -/
def c1Env : UploadEnv :=
  { s3PutOk := true
    s3DeleteOk := true
    dynPutOk := false
    decoded := some (200, 200, some "JPEG")
    newId := "id-1"
    now := "2026-10-12T00:00:00"
    datePath := "2026/10" }

set_option maxRecDepth 100000 in
/-- Witness for C1: a concrete valid upload where the metadata write fails
after a successful blob write reports the metadata failure. -/
theorem c1_upload_saga_atomicity_witness :
    (ImageService.upload_image c1Env ⟨[], []⟩ (List.replicate 1024 0) "a.jpg"
        ⟨none, none, none, "u1"⟩).1 = .failure "Failed to store image metadata" :=
  ((c1_upload_saga_atomicity c1Env ⟨[], []⟩ (List.replicate 1024 0) "a.jpg"
      ⟨none, none, none, "u1"⟩ (by decide)).1 rfl rfl).1

/-! ## Read paths: dynamo→api conversion, `get_image`, download endpoint -/

/-- The Python value held in the `tags` field after
`_convert_dynamo_to_api_format`: either still the raw string or the parsed
list. -/
inductive TagsVal where
  | str (s : String)
  | list (ts : List String)
deriving DecidableEq, Repr

/-- `[tag.strip() for tag in api_data['tags'].split(',') if tag.strip()]`. -/
def splitTags (s : String) : List String :=
  (pySplit ',' s).filterMap (fun t => if pyStrip t = "" then none else some (pyStrip t))

/-- The tags branch of `ImageService._convert_dynamo_to_api_format` (lines
19–28): a truthy (non-empty) string is split/stripped/filtered — to `[]`
when whitespace-only — while the falsy empty string is left unchanged. -/
def convertTags (s : String) : TagsVal :=
  if s = "" then .str s
  else if pyStrip s = "" then .list []
  else .list (splitTags s)

/-- A DynamoDB item after `_convert_dynamo_to_api_format`. -/
structure ApiRecord where
  image_id : String
  created_at : String
  user_id : String
  title : Option String
  description : Option String
  tags : TagsVal
  file_name : String
  file_size : Nat
  content_type : String
  width : Nat
  height : Nat
  format : String
  s3_key : String
  is_deleted : Bool
  updated_at : Option String
deriving DecidableEq, Repr

/-- `ImageService._convert_dynamo_to_api_format`: copy of the item with the
tags string converted. -/
def convert_dynamo_to_api_format (d : DynamoRecord) : ApiRecord :=
  { image_id := d.image_id
    created_at := d.created_at
    user_id := d.user_id
    title := d.title
    description := d.description
    tags := convertTags d.tags
    file_name := d.file_name
    file_size := d.file_size
    content_type := d.content_type
    width := d.width
    height := d.height
    format := d.format
    s3_key := d.s3_key
    is_deleted := d.is_deleted
    updated_at := d.updated_at }

/-- `ImageResponse` (pydantic response model): note it has *no* `s3_key`
field — the storage key is not part of the response schema — and its
`tags` field is declared `Optional[List[str]]`. -/
structure ImageResponse where
  image_id : String
  created_at : String
  user_id : String
  title : Option String
  description : Option String
  tags : Option (List String)
  file_name : String
  file_size : Nat
  content_type : String
  width : Nat
  height : Nat
  format : String
  download_url : Option String := none
  thumbnail_url : Option String := none
deriving DecidableEq, Repr

/-- `ImageResponse(**api_metadata)`: the constructor keeps the declared
fields and ignores the extra keys (`s3_key`, `is_deleted`, `updated_at`),
pydantic's default behaviour for unknown keyword arguments — but it
*validates* the declared field types.  The `tags` field is
`Optional[List[str]]`, and the one type-mismatched value this service's
own data can feed it is a string (the stored `''` of a tag-less upload is
falsy, so `_convert_dynamo_to_api_format` leaves it unconverted): pydantic
does not coerce `str` to `list`, so construction raises `ValidationError`,
modelled as `none`. -/
def ImageResponse.ofApi (a : ApiRecord) : Option ImageResponse :=
  match a.tags with
  | .str _ => none
  | .list ts =>
    some
      { image_id := a.image_id
        created_at := a.created_at
        user_id := a.user_id
        title := a.title
        description := a.description
        tags := some ts
        file_name := a.file_name
        file_size := a.file_size
        content_type := a.content_type
        width := a.width
        height := a.height
        format := a.format }

/-- A Python value appearing in a dumped response dict. -/
inductive PyVal where
  | pstr (s : String)
  | pnat (n : Nat)
  | plist (ts : List String)
  | pnone
deriving DecidableEq, Repr

/-- Optional string as a Python value. -/
def optStrVal : Option String → PyVal
  | none => .pnone
  | some s => .pstr s

/-- Optional string list as a Python value. -/
def optListVal : Option (List String) → PyVal
  | none => .pnone
  | some ts => .plist ts

/-- `ImageResponse.model_dump()`: exactly the declared fields, in
declaration order. -/
def ImageResponse.model_dump (r : ImageResponse) : List (String × PyVal) :=
  [("image_id", .pstr r.image_id),
   ("created_at", .pstr r.created_at),
   ("user_id", .pstr r.user_id),
   ("title", optStrVal r.title),
   ("description", optStrVal r.description),
   ("tags", optListVal r.tags),
   ("file_name", .pstr r.file_name),
   ("file_size", .pnat r.file_size),
   ("content_type", .pstr r.content_type),
   ("width", .pnat r.width),
   ("height", .pnat r.height),
   ("format", .pstr r.format),
   ("download_url", optStrVal r.download_url),
   ("thumbnail_url", optStrVal r.thumbnail_url)]

/-- Python dict subscript access, partial: `d[key]` raises `KeyError` when
the key is absent, which the model signals with `none`. -/
def dictGet (d : List (String × PyVal)) (key : String) : Option PyVal :=
  (d.find? (fun kv => kv.1 == key)).map (fun kv => kv.2)

/-- `DynamoDBClient.get_image_metadata_by_id`: the first stored item whose
partition key matches the id (`items[0] if items else None`). -/
def DynamoDBClient.get_image_metadata_by_id (table : List DynamoRecord)
    (image_id : String) : Option DynamoRecord :=
  table.find? (fun r => r.image_id == image_id)

/-- Result dict of `ImageService.get_image`. -/
inductive GetResult where
  | success (image : List (String × PyVal))
  | failure (error : String)
deriving DecidableEq, Repr

/-- `ImageService.get_image` (lines 125–165).  `presign` models
`S3Client.generate_presigned_url` at its default expiration; a presign
result that is `None` or `""` is falsy and leaves `download_url` unset.
A `ValidationError` from the response-model constructor is caught by the
blanket `except` and becomes "Internal server error". -/
def ImageService.get_image (table : List DynamoRecord)
    (presign : String → Option String) (image_id : String)
    (include_download_url : Bool) : GetResult :=
  match DynamoDBClient.get_image_metadata_by_id table image_id with
  | none => .failure "Image not found"
  | some metadata =>
    if metadata.is_deleted then .failure "Image not found"
    else
      let api_metadata := convert_dynamo_to_api_format metadata
      match ImageResponse.ofApi api_metadata with
      | none => .failure "Internal server error"
      | some image_response =>
        let image_response :=
          if include_download_url then
            match presign metadata.s3_key with
            | some url => if url = "" then image_response
                else { image_response with download_url := some url }
            | none => image_response
          else image_response
        .success image_response.model_dump

/-- C2: soft-deleted and absent records are indistinguishable through
`get_image` — both produce exactly the not-found failure, so the two
results are equal whatever the stores, ids and flags involved. -/
theorem c2_deleted_absent_uniform (table₁ table₂ : List DynamoRecord)
    (presign₁ presign₂ : String → Option String) (id₁ id₂ : String)
    (incl₁ incl₂ : Bool) (r : DynamoRecord)
    (habsent : DynamoDBClient.get_image_metadata_by_id table₁ id₁ = none)
    (hfound : DynamoDBClient.get_image_metadata_by_id table₂ id₂ = some r)
    (hdeleted : r.is_deleted = true) :
    ImageService.get_image table₂ presign₂ id₂ incl₂ =
        GetResult.failure "Image not found" ∧
      ImageService.get_image table₂ presign₂ id₂ incl₂ =
        ImageService.get_image table₁ presign₁ id₁ incl₁ := by
  unfold ImageService.get_image
  rw [habsent, hfound]
  simp [hdeleted]

/-- A deleted record as stored by this service. -/
def sampleDeletedRecord : DynamoRecord :=
  { image_id := "test123"
    created_at := "2023-01-01T00:00:00"
    user_id := "user123"
    title := some "Test Image"
    description := none
    tags := "test,sample"
    file_name := "test.jpg"
    file_size := 12345
    content_type := "image/jpeg"
    width := 200
    height := 200
    format := "jpeg"
    s3_key := "images/2023/01/test123.jpg"
    is_deleted := true
    updated_at := some "2023-02-01T00:00:00" }

/-- Witness for C2: fetching the concrete deleted record answers exactly
like fetching from an empty store. -/
theorem c2_deleted_absent_uniform_witness :
    ImageService.get_image [sampleDeletedRecord] (fun _ => none) "test123" true =
        GetResult.failure "Image not found" ∧
      ImageService.get_image [sampleDeletedRecord] (fun _ => none) "test123" true =
        ImageService.get_image [] (fun _ => none) "missing" true :=
  c2_deleted_absent_uniform [] [sampleDeletedRecord] (fun _ => none) (fun _ => none)
    "missing" "test123" true true sampleDeletedRecord rfl (by decide) rfl

/-! ## Soft delete (`ImageService.delete_image`) -/

/-- `DynamoDBClient.update_image_metadata`, specialised to the update dict
the delete path passes (`{'is_deleted': True, 'updated_at': now}`): on
success the item at the exact composite key gets those two fields set. -/
def DynamoDBClient.update_image_metadata (ok : Bool) (table : List DynamoRecord)
    (image_id created_at now : String) : Bool × List DynamoRecord :=
  if ok then
    (true, table.map (fun r =>
      if r.image_id == image_id && r.created_at == created_at then
        { r with is_deleted := true, updated_at := some now }
      else r))
  else (false, table)

/-- Result dict of `ImageService.delete_image`. -/
inductive DeleteResult where
  | success (message image_id : String)
  | failure (error : String)
deriving DecidableEq, Repr

/-- `ImageService.delete_image` (lines 238–293): fetch, ownership check,
already-deleted check, then the soft-delete update.  `updateOk` is the
outcome oracle of the update call and `now` the clock read. -/
def ImageService.delete_image (updateOk : Bool) (now : String)
    (table : List DynamoRecord) (image_id user_id : String) :
    DeleteResult × List DynamoRecord :=
  match DynamoDBClient.get_image_metadata_by_id table image_id with
  | none => (.failure "Image not found", table)
  | some metadata =>
    if metadata.user_id ≠ user_id then
      (.failure "Unauthorized to delete this image", table)
    else if metadata.is_deleted then
      (.failure "Image already deleted", table)
    else
      let upd := DynamoDBClient.update_image_metadata updateOk table
        image_id metadata.created_at now
      if !upd.1 then (.failure "Failed to delete image", upd.2)
      else (.success "Image deleted successfully" image_id, upd.2)

/-- `find?` commutes with a map that leaves the predicate invariant. -/
theorem find?_map_invariant {α : Type} (p : α → Bool) (f : α → α)
    (hp : ∀ a, p (f a) = p a) :
    ∀ (l : List α) (r : α), l.find? p = some r → (l.map f).find? p = some (f r) := by
  intro l
  induction l with
  | nil => intro r h; simp [List.find?] at h
  | cons a t ih =>
    intro r h
    by_cases ha : p a = true
    · rw [List.find?_cons_of_pos _ ha] at h
      cases h
      exact List.find?_cons_of_pos _ (by rw [hp]; exact ha)
    · rw [List.find?_cons_of_neg _ ha] at h
      rw [List.map_cons, List.find?_cons_of_neg _ (by rw [hp]; exact ha)]
      exact ih r h

/-- C5: soft delete is idempotent at the record level.  For a live record
fetched by its id whose owner matches, the first delete (with the update
call succeeding) reports success, and a second delete with the same id and
owner reports the distinct "Image already deleted" failure while leaving
the table exactly as it was after the first call — the deleted state is
absorbing under this operation. -/
theorem c5_soft_delete_idempotent (now₁ now₂ : String) (updateOk₂ : Bool)
    (table : List DynamoRecord) (image_id user_id : String) (r : DynamoRecord)
    (hfind : DynamoDBClient.get_image_metadata_by_id table image_id = some r)
    (howner : r.user_id = user_id) (hlive : r.is_deleted = false) :
    (ImageService.delete_image true now₁ table image_id user_id).1 =
        DeleteResult.success "Image deleted successfully" image_id ∧
      (ImageService.delete_image updateOk₂ now₂
          (ImageService.delete_image true now₁ table image_id user_id).2
          image_id user_id).1 = DeleteResult.failure "Image already deleted" ∧
      (ImageService.delete_image updateOk₂ now₂
          (ImageService.delete_image true now₁ table image_id user_id).2
          image_id user_id).2 =
        (ImageService.delete_image true now₁ table image_id user_id).2 := by
  have hpr : (r.image_id == image_id) = true := by
    have hf : table.find? (fun q => q.image_id == image_id) = some r := by
      simpa [DynamoDBClient.get_image_metadata_by_id] using hfind
    have h := List.find?_some hf
    simpa using h
  have h1 : ImageService.delete_image true now₁ table image_id user_id =
      (DeleteResult.success "Image deleted successfully" image_id,
        table.map (fun q =>
          if q.image_id == image_id && q.created_at == r.created_at then
            { q with is_deleted := true, updated_at := some now₁ }
          else q)) := by
    unfold ImageService.delete_image
    rw [hfind]
    simp [howner, hlive, DynamoDBClient.update_image_metadata]
  have h2find : DynamoDBClient.get_image_metadata_by_id
      (table.map (fun q =>
        if q.image_id == image_id && q.created_at == r.created_at then
          { q with is_deleted := true, updated_at := some now₁ }
        else q)) image_id =
      some (if r.image_id == image_id && r.created_at == r.created_at then
          { r with is_deleted := true, updated_at := some now₁ }
        else r) := by
    unfold DynamoDBClient.get_image_metadata_by_id
    refine find?_map_invariant _ _ ?_ table r
      (by simpa [DynamoDBClient.get_image_metadata_by_id] using hfind)
    intro a
    by_cases h : (a.image_id == image_id && a.created_at == r.created_at) = true <;>
      simp [h]
  have hfr : (if r.image_id == image_id && r.created_at == r.created_at then
        { r with is_deleted := true, updated_at := some now₁ }
      else r) = { r with is_deleted := true, updated_at := some now₁ } := by
    simp [hpr]
  rw [hfr] at h2find
  have h2 : ImageService.delete_image updateOk₂ now₂
      (ImageService.delete_image true now₁ table image_id user_id).2
      image_id user_id =
      (DeleteResult.failure "Image already deleted",
        (ImageService.delete_image true now₁ table image_id user_id).2) := by
    rw [h1]
    unfold ImageService.delete_image
    rw [h2find]
    simp [howner]
  exact ⟨by rw [h1], by rw [h2], by rw [h2]⟩

/-- A live record owned by `user123`. -/
def sampleLiveRecord : DynamoRecord :=
  { image_id := "img1"
    created_at := "2023-01-01T00:00:00"
    user_id := "user123"
    title := some "Test Image"
    description := some "Test description"
    tags := "test,sample"
    file_name := "img1.jpg"
    file_size := 12345
    content_type := "image/jpeg"
    width := 200
    height := 200
    format := "jpeg"
    s3_key := "images/2023/01/img1.jpg"
    is_deleted := false
    updated_at := none }

/-- Witness for C5: deleting the concrete live record twice gives success
then "Image already deleted". -/
theorem c5_soft_delete_idempotent_witness :
    (ImageService.delete_image true "t1" [sampleLiveRecord] "img1" "user123").1 =
        DeleteResult.success "Image deleted successfully" "img1" ∧
      (ImageService.delete_image true "t2"
          (ImageService.delete_image true "t1" [sampleLiveRecord] "img1" "user123").2
          "img1" "user123").1 = DeleteResult.failure "Image already deleted" ∧
      (ImageService.delete_image true "t2"
          (ImageService.delete_image true "t1" [sampleLiveRecord] "img1" "user123").2
          "img1" "user123").2 =
        (ImageService.delete_image true "t1" [sampleLiveRecord] "img1" "user123").2 :=
  c5_soft_delete_idempotent "t1" "t2" true [sampleLiveRecord] "img1" "user123"
    sampleLiveRecord (by decide) rfl rfl

/-! ## Download-link endpoint (`src/main.py`, `get_image_download_url`) -/

/-- Whether the first character list starts the second. -/
def leadsCh : List Char → List Char → Bool
  | [], _ => true
  | _ :: _, [] => false
  | a :: as, b :: bs => a == b && leadsCh as bs

/-- Whether the first character list occurs inside the second. -/
def insideCh (sub : List Char) : List Char → Bool
  | [] => sub.isEmpty
  | c :: rest => leadsCh sub (c :: rest) || insideCh sub rest

/-- Python `sub in s` substring containment. -/
def pyContains (sub s : String) : Bool :=
  insideCh sub.toList s.toList

/-- Outcome of an HTTP endpoint: a 200 payload or an error status with the
`HTTPException` detail (uncaught exceptions become 500 via the generic
handler). -/
inductive HttpResult where
  | ok (payload : List (String × PyVal))
  | err (status : Nat) (detail : String)
deriving DecidableEq, Repr

/-- `GET /images/{image_id}/download` (`src/main.py`, lines 210–255): calls
`get_image` without a download url, then reads `image_data["s3_key"]` —
a plain dict subscript; if the key is missing the `KeyError` is caught by
the blanket `except` and surfaces as 500 "Internal server error" — and
presigns it with the requested expiration. -/
def get_image_download_url (table : List DynamoRecord)
    (presign : String → Nat → Option String) (image_id : String)
    (expires_in : Nat) : HttpResult :=
  match ImageService.get_image table (fun k => presign k 3600) image_id false with
  | .failure e =>
    if pyContains "not found" (pyLower e) then .err 404 e else .err 400 e
  | .success image_data =>
    match dictGet image_data "s3_key" with
    | none => .err 500 "Internal server error"
    | some v =>
      match v with
      | .pstr key =>
        match presign key expires_in with
        | none => .err 500 "Failed to generate download URL"
        | some url =>
          if url = "" then .err 500 "Failed to generate download URL"
          else
            .ok [("image_id", .pstr image_id),
                 ("download_url", .pstr url),
                 ("expires_in", .pnat expires_in),
                 ("content_type", (dictGet image_data "content_type").getD .pnone),
                 ("file_size", (dictGet image_data "file_size").getD .pnone)]
      | _ => .err 500 "Internal server error"

/-- The dumped response schema never carries an `s3_key` entry. -/
theorem model_dump_no_s3_key (r : ImageResponse) :
    dictGet r.model_dump "s3_key" = none := by
  simp [ImageResponse.model_dump, dictGet, List.find?]

/-- C7: the download endpoint can never succeed on a live record.  The
service response is an `ImageResponse` dump, which has no `s3_key` entry,
so the endpoint's `image_data["s3_key"]` access raises `KeyError` and every
request for an existing, non-deleted record answers
500 "Internal server error" instead of the specified 200 payload. -/
theorem c7_download_endpoint_always_500 :
    get_image_download_url [sampleLiveRecord]
        (fun _ _ => some "https-presigned-url") "img1" 3600 =
      HttpResult.err 500 "Internal server error" := by
  rfl

/-! ## Pagination token codec (`list_images`, lines 171–180 and 217–221)

The outward page token is `base64.b64encode(json.dumps(last_evaluated_key
).encode()).decode()`; decoding is `json.loads(base64.b64decode(token
).decode())` with any exception mapped to the "Invalid page token" failure.
A DynamoDB `LastEvaluatedKey` for this table is an ordered mapping of
key-attribute names to string values (`image_id`/`created_at`, plus
`user_id` on the GSI), modelled as an association list. -/

/-- A DynamoDB continuation key: ordered attribute-name/value pairs. -/
abbrev LastKey := List (String × String)

/-- The standard base64 alphabet. -/
def b64Alphabet : List Char :=
  "ABCDEFGHIJKLMNOPQRSTUVWXYZabcdefghijklmnopqrstuvwxyz0123456789+/".toList

/-- The base64 digit for a sextet. -/
def b64Char (n : Nat) : Char := b64Alphabet.getD n '?'

/-- Position of a character in the base64 alphabet. -/
def b64ValAux : List Char → Char → Nat → Option Nat
  | [], _, _ => none
  | a :: rest, c, i => if a == c then some i else b64ValAux rest c (i + 1)

/-- The sextet a base64 digit stands for. -/
def b64Val (c : Char) : Option Nat := b64ValAux b64Alphabet c 0

/-- Characters `base64.b64decode` keeps: alphabet digits and padding
(everything else is discarded before decoding, Python's `validate=False`
default). -/
def isB64Char (c : Char) : Bool := (b64Val c).isSome || c == '='

/-- `base64.b64encode` over the byte list: three bytes become four digits,
with `=` padding for one or two trailing bytes. -/
def b64encodeBytes : List Nat → List Char
  | b1 :: b2 :: b3 :: rest =>
    b64Char (b1 / 4) :: b64Char (b1 % 4 * 16 + b2 / 16) ::
      b64Char (b2 % 16 * 4 + b3 / 64) :: b64Char (b3 % 64) :: b64encodeBytes rest
  | [b1, b2] =>
    [b64Char (b1 / 4), b64Char (b1 % 4 * 16 + b2 / 16), b64Char (b2 % 16 * 4), '=']
  | [b1] => [b64Char (b1 / 4), b64Char (b1 % 4 * 16), '=', '=']
  | [] => []

/-- `base64.b64decode` on the retained characters: whole quads only, `=`
padding only at the end, anything else is a decoding error (`none`). -/
def b64decodeQuads : List Char → Option (List Nat)
  | [] => some []
  | c1 :: c2 :: c3 :: c4 :: rest =>
    match b64Val c1, b64Val c2 with
    | some v1, some v2 =>
      if c3 = '=' then
        if c4 = '=' then
          if rest.isEmpty then some [v1 * 4 + v2 / 16] else none
        else none
      else
        match b64Val c3 with
        | some v3 =>
          if c4 = '=' then
            if rest.isEmpty then some [v1 * 4 + v2 / 16, v2 % 16 * 16 + v3 / 4]
            else none
          else
            match b64Val c4 with
            | some v4 =>
              match b64decodeQuads rest with
              | some bs =>
                some ((v1 * 4 + v2 / 16) :: (v2 % 16 * 16 + v3 / 4) ::
                  (v3 % 4 * 64 + v4) :: bs)
              | none => none
            | none => none
        | none => none
    | _, _ => none
  | _ => none

/-- `base64.b64decode(token)`: discard foreign characters, decode quads. -/
def b64decodeChars (cs : List Char) : Option (List Nat) :=
  b64decodeQuads (cs.filter isB64Char)

/-- `bytes.decode()`, restricted to ASCII: every byte the codec's own
encoder produces is ASCII, and non-ASCII bytes are conservatively treated
as undecodable (no theorem depends on multi-byte UTF-8 sequences). -/
def asciiDecode (bs : List Nat) : Option String :=
  if bs.all (fun b => b < 128) then some (String.mk (bs.map Char.ofNat)) else none

/-- One `"key": "value"` entry as `json.dumps` lays it out. -/
def jsonEntryChars (e : String × String) : List Char :=
  '"' :: e.1.toList ++ '"' :: ':' :: ' ' :: '"' :: e.2.toList ++ ['"']

/-- The `json.dumps` entry list with `", "` separators and closing brace. -/
def jsonEntriesChars : LastKey → List Char
  | [] => ['}']
  | [e] => jsonEntryChars e ++ ['}']
  | e :: rest => jsonEntryChars e ++ ',' :: ' ' :: jsonEntriesChars rest

/-- `json.dumps(last_evaluated_key)` (string values; separators `", "` and
`": "`, Python's defaults). -/
def jsonDumpsKey (k : LastKey) : String := String.mk ('{' :: jsonEntriesChars k)

/-- Scan a JSON string body up to its closing quote.  Escape sequences make
the scan fail (`none`): the cursor strings this codec round-trips are
escape-free, and no theorem relies on decoding escaped input. -/
def takeStr : List Char → Option (List Char × List Char)
  | [] => none
  | c :: rest =>
    if c = '"' then some ([], rest)
    else if c = '\\' then none
    else
      match takeStr rest with
      | some (a, b) => some (c :: a, b)
      | none => none

/-- Parse one `"key": "value"` entry, returning it and the rest. -/
def parseEntry (cs : List Char) : Option ((String × String) × List Char) :=
  match cs with
  | '"' :: cs1 =>
    match takeStr cs1 with
    | some (k, cs2) =>
      match cs2 with
      | ':' :: ' ' :: '"' :: cs3 =>
        match takeStr cs3 with
        | some (v, cs4) => some ((String.mk k, String.mk v), cs4)
        | none => none
      | _ => none
    | none => none
  | _ => none

/-- Parse the entry list up to the closing brace (fuelled by the input
length: each entry consumes at least one character). -/
def parseEntriesF : Nat → List Char → Option LastKey
  | 0, _ => none
  | fuel + 1, cs =>
    match parseEntry cs with
    | some (e, rest) =>
      match rest with
      | ['}'] => some [e]
      | ',' :: ' ' :: r2 =>
        match parseEntriesF fuel r2 with
        | some es => some (e :: es)
        | none => none
      | _ => none
    | none => none

/-- `json.loads`, restricted to the object-of-strings grammar in the exact
layout `json.dumps` emits (the only decode successes any theorem relies
on); other documents `json.loads` would accept are outside the model and
no theorem asserts their rejection. -/
def jsonLoadsKey (s : String) : Option LastKey :=
  match s.toList with
  | '{' :: '}' :: rest => if rest.isEmpty then some [] else none
  | '{' :: rest => parseEntriesF rest.length rest
  | _ => none

/-- `base64.b64encode(json.dumps(k).encode()).decode()` — the outward page
token for a store cursor. -/
def encodeToken (k : LastKey) : String :=
  String.mk (b64encodeBytes ((jsonDumpsKey k).toList.map Char.toNat))

/-- `json.loads(base64.b64decode(token).decode())` with failures collapsed
to `none`. -/
def decodeToken (t : String) : Option LastKey :=
  match b64decodeChars t.toList with
  | some bs =>
    match asciiDecode bs with
    | some s => jsonLoadsKey s
    | none => none
  | none => none

/-- A character that `json.dumps` passes through unescaped: printable
ASCII other than `"` and `\`. -/
def plainChar (c : Char) : Bool :=
  32 ≤ c.toNat && c.toNat ≤ 126 && !(c == '"') && !(c == '\\')

/-- A string of plain characters. -/
def plainStr (s : String) : Bool := s.toList.all plainChar

/-- A cursor whose attribute names and values are plain — every cursor this
table produces (uuid, ISO timestamp, attribute names) is of this shape. -/
def plainKey (k : LastKey) : Bool :=
  k.all (fun e => plainStr e.1 && plainStr e.2)

/-- Looking up an alphabet digit recovers its sextet. -/
theorem b64Val_b64Char {n : Nat} (h : n < 64) : b64Val (b64Char n) = some n := by
  have hfin : ∀ i : Fin 64, b64Val (b64Char i.val) = some i.val := by decide
  exact hfin ⟨n, h⟩

/-- Alphabet digits are never the padding character. -/
theorem b64Char_ne_pad {n : Nat} (h : n < 64) : b64Char n ≠ '=' := by
  have hfin : ∀ i : Fin 64, b64Char i.val ≠ '=' := by decide
  exact hfin ⟨n, h⟩

/-- Alphabet digits survive the pre-decode filter. -/
theorem isB64Char_b64Char {n : Nat} (h : n < 64) : isB64Char (b64Char n) = true := by
  simp [isB64Char, b64Val_b64Char h]

/-- Every character the encoder emits survives the pre-decode filter. -/
theorem b64encode_all_b64 : ∀ bs : List Nat, (∀ b ∈ bs, b < 256) →
    ∀ c ∈ b64encodeBytes bs, isB64Char c = true
  | [], _ => by intro c hc; simp [b64encodeBytes] at hc
  | [b1], h => by
    intro c hc
    have hb1 : b1 < 256 := h b1 (by simp)
    simp only [b64encodeBytes, List.mem_cons, List.mem_singleton,
      List.not_mem_nil, or_false] at hc
    rcases hc with rfl | rfl | rfl | rfl
    · exact isB64Char_b64Char (by omega)
    · exact isB64Char_b64Char (by omega)
    · simp [isB64Char]
    · simp [isB64Char]
  | [b1, b2], h => by
    intro c hc
    have hb1 : b1 < 256 := h b1 (by simp)
    have hb2 : b2 < 256 := h b2 (by simp)
    simp only [b64encodeBytes, List.mem_cons, List.mem_singleton,
      List.not_mem_nil, or_false] at hc
    rcases hc with rfl | rfl | rfl | rfl
    · exact isB64Char_b64Char (by omega)
    · exact isB64Char_b64Char (by omega)
    · exact isB64Char_b64Char (by omega)
    · simp [isB64Char]
  | b1 :: b2 :: b3 :: rest, h => by
    intro c hc
    have hb1 : b1 < 256 := h b1 (by simp)
    have hb2 : b2 < 256 := h b2 (by simp)
    have hb3 : b3 < 256 := h b3 (by simp)
    have ih := b64encode_all_b64 rest (fun b hb => h b (by simp [hb]))
    simp only [b64encodeBytes, List.mem_cons] at hc
    rcases hc with rfl | rfl | rfl | rfl | hc
    · exact isB64Char_b64Char (by omega)
    · exact isB64Char_b64Char (by omega)
    · exact isB64Char_b64Char (by omega)
    · exact isB64Char_b64Char (by omega)
    · exact ih c hc

/-- Decoding inverts encoding on byte lists. -/
theorem b64decode_encode : ∀ bs : List Nat, (∀ b ∈ bs, b < 256) →
    b64decodeQuads (b64encodeBytes bs) = some bs
  | [], _ => rfl
  | [b1], h => by
    have hb1 : b1 < 256 := h b1 (by simp)
    have h1 : b1 / 4 < 64 := by omega
    have h2 : b1 % 4 * 16 < 64 := by omega
    simp [b64encodeBytes, b64decodeQuads, b64Val_b64Char h1, b64Val_b64Char h2]
    omega
  | [b1, b2], h => by
    have hb1 : b1 < 256 := h b1 (by simp)
    have hb2 : b2 < 256 := h b2 (by simp)
    have h1 : b1 / 4 < 64 := by omega
    have h2 : b1 % 4 * 16 + b2 / 16 < 64 := by omega
    have h3 : b2 % 16 * 4 < 64 := by omega
    simp [b64encodeBytes, b64decodeQuads, b64Val_b64Char h1, b64Val_b64Char h2,
      b64Val_b64Char h3, b64Char_ne_pad h3]
    omega
  | b1 :: b2 :: b3 :: rest, h => by
    have hb1 : b1 < 256 := h b1 (by simp)
    have hb2 : b2 < 256 := h b2 (by simp)
    have hb3 : b3 < 256 := h b3 (by simp)
    have h1 : b1 / 4 < 64 := by omega
    have h2 : b1 % 4 * 16 + b2 / 16 < 64 := by omega
    have h3 : b2 % 16 * 4 + b3 / 64 < 64 := by omega
    have h4 : b3 % 64 < 64 := by omega
    have ih := b64decode_encode rest (fun b hb => h b (by simp [hb]))
    simp [b64encodeBytes, b64decodeQuads, b64Val_b64Char h1, b64Val_b64Char h2,
      b64Val_b64Char h3, b64Val_b64Char h4, b64Char_ne_pad h3, b64Char_ne_pad h4, ih]
    omega

/-- Decoding inverts encoding through the character filter as well. -/
theorem b64decodeChars_encode (bs : List Nat) (h : ∀ b ∈ bs, b < 256) :
    b64decodeChars (b64encodeBytes bs) = some bs := by
  unfold b64decodeChars
  rw [List.filter_eq_self.mpr (b64encode_all_b64 bs h)]
  exact b64decode_encode bs h

/-- For a valid code point, `Char.ofNat` recovers the same character. -/
theorem char_ofNat_toNat (c : Char) : Char.ofNat c.toNat = c := by
  unfold Char.ofNat
  have hv : c.toNat.isValidChar := by
    rcases c with ⟨v, hval⟩
    exact hval
  rw [dif_pos hv]
  rcases c with ⟨⟨⟨n, hn⟩⟩, hval⟩
  rfl

/-- The string scanner consumes a plain body up to its closing quote. -/
theorem takeStr_plain : ∀ (a rest : List Char), (∀ c ∈ a, plainChar c = true) →
    takeStr (a ++ '"' :: rest) = some (a, rest)
  | [], rest, _ => by simp [takeStr]
  | c :: a, rest, h => by
    have hc : plainChar c = true := h c (by simp)
    simp only [plainChar, Bool.and_eq_true, Bool.not_eq_true', beq_eq_false_iff_ne,
      ne_eq] at hc
    obtain ⟨⟨_, hq⟩, hb⟩ := hc
    have ih := takeStr_plain a rest (fun d hd => h d (by simp [hd]))
    simp [takeStr, hq, hb, ih]

/-- The entry parser consumes exactly one dumped entry. -/
theorem parseEntry_dump (e : String × String) (rest : List Char)
    (h1 : plainStr e.1 = true) (h2 : plainStr e.2 = true) :
    parseEntry (jsonEntryChars e ++ rest) = some (e, rest) := by
  have hp1 : ∀ c ∈ e.1.toList, plainChar c = true := by
    intro c hc
    exact List.all_eq_true.mp h1 c hc
  have hp2 : ∀ c ∈ e.2.toList, plainChar c = true := by
    intro c hc
    exact List.all_eq_true.mp h2 c hc
  have hshape : jsonEntryChars e ++ rest =
      '"' :: (e.1.toList ++ '"' :: ':' :: ' ' :: '"' :: (e.2.toList ++ '"' :: rest)) := by
    simp [jsonEntryChars]
  rw [hshape]
  simp only [parseEntry, takeStr_plain e.1.toList _ hp1, takeStr_plain e.2.toList _ hp2]
  rfl

/-- Each dumped entry takes at least one character, so the input length is
enough fuel for the entry parser. -/
theorem jsonEntriesChars_length : ∀ l : LastKey, l.length ≤ (jsonEntriesChars l).length
  | [] => by simp [jsonEntriesChars]
  | [e] => by simp [jsonEntriesChars, jsonEntryChars]
  | e :: e2 :: rest => by
    have ih := jsonEntriesChars_length (e2 :: rest)
    simp only [jsonEntriesChars, jsonEntryChars, List.length_append, List.length_cons] at *
    omega

/-- With enough fuel, the entry parser inverts the entry dumper. -/
theorem parseEntriesF_dump : ∀ (l : LastKey) (f : Nat), l ≠ [] → plainKey l = true →
    l.length ≤ f → parseEntriesF f (jsonEntriesChars l) = some l
  | [], _, hne, _, _ => absurd rfl hne
  | [e], f, _, hp, hf => by
    obtain ⟨f', rfl⟩ : ∃ f', f = f' + 1 := ⟨f - 1, by simp at hf; omega⟩
    simp only [plainKey, List.all_cons, List.all_nil, Bool.and_true,
      Bool.and_eq_true] at hp
    simp [parseEntriesF, jsonEntriesChars, parseEntry_dump e _ hp.1 hp.2]
  | e :: e2 :: rest, f, _, hp, hf => by
    obtain ⟨f', rfl⟩ : ∃ f', f = f' + 1 := ⟨f - 1, by simp at hf; omega⟩
    have hp' : plainKey (e2 :: rest) = true := by
      simp only [plainKey, List.all_cons, Bool.and_eq_true] at hp ⊢
      exact ⟨hp.2.1, hp.2.2⟩
    have hpe : (plainStr e.1 && plainStr e.2) = true := by
      simp only [plainKey, List.all_cons, Bool.and_eq_true] at hp
      simp [hp.1.1, hp.1.2]
    simp only [Bool.and_eq_true] at hpe
    have ih := parseEntriesF_dump (e2 :: rest) f' (by simp) hp'
      (by simp at hf ⊢; omega)
    simp only [jsonEntriesChars]
    simp [parseEntriesF, parseEntry_dump e _ hpe.1 hpe.2, ih]

/-- `json.loads` inverts `json.dumps` on plain cursors. -/
theorem jsonLoads_dump (k : LastKey) (hp : plainKey k = true) :
    jsonLoadsKey (jsonDumpsKey k) = some k := by
  cases k with
  | nil => rfl
  | cons e rest =>
    obtain ⟨t, ht⟩ : ∃ t, jsonEntriesChars (e :: rest) = '"' :: t := by
      cases rest <;> simp [jsonEntriesChars, jsonEntryChars]
    have hfuel : (e :: rest).length ≤ ('"' :: t).length := by
      rw [← ht]
      exact jsonEntriesChars_length (e :: rest)
    have hparse : parseEntriesF ('"' :: t).length ('"' :: t) = some (e :: rest) := by
      rw [← ht]
      exact parseEntriesF_dump (e :: rest) _ (by simp) hp (by rw [ht]; exact hfuel)
    have hred : jsonLoadsKey (jsonDumpsKey (e :: rest)) =
        parseEntriesF ('"' :: t).length ('"' :: t) := by
      unfold jsonDumpsKey jsonLoadsKey
      rw [show (String.mk ('{' :: jsonEntriesChars (e :: rest))).toList
          = '{' :: jsonEntriesChars (e :: rest) from rfl, ht]
      rfl
    rw [hred, hparse]

/-- All characters of a dumped entry are ASCII. -/
theorem jsonEntryChars_ascii (e : String × String)
    (h1 : plainStr e.1 = true) (h2 : plainStr e.2 = true) :
    ∀ c ∈ jsonEntryChars e, c.toNat < 128 := by
  intro c hc
  have hbound : ∀ (s : String), plainStr s = true → c ∈ s.toList → c.toNat < 128 := by
    intro s hs hmem
    have := List.all_eq_true.mp hs c hmem
    simp only [plainChar, Bool.and_eq_true, decide_eq_true_eq] at this
    omega
  simp only [jsonEntryChars, List.mem_cons, List.mem_append, List.mem_singleton] at hc
  have hcases : c = '"' ∨ c = ':' ∨ c = ' ' ∨ c ∈ e.1.toList ∨ c ∈ e.2.toList := by
    tauto
  rcases hcases with rfl | rfl | rfl | hm | hm
  · decide
  · decide
  · decide
  · exact hbound e.1 h1 hm
  · exact hbound e.2 h2 hm

/-- All characters of the dumped entry list are ASCII. -/
theorem jsonEntriesChars_ascii : ∀ l : LastKey, plainKey l = true →
    ∀ c ∈ jsonEntriesChars l, c.toNat < 128
  | [], _ => by
    intro c hc
    simp only [jsonEntriesChars, List.mem_singleton] at hc
    subst hc
    decide
  | [e], hp => by
    intro c hc
    simp only [plainKey, List.all_cons, List.all_nil, Bool.and_true,
      Bool.and_eq_true] at hp
    simp only [jsonEntriesChars, List.mem_append, List.mem_singleton] at hc
    rcases hc with hc | rfl
    · exact jsonEntryChars_ascii e hp.1 hp.2 c hc
    · decide
  | e :: e2 :: rest, hp => by
    intro c hc
    have hp1 : (plainStr e.1 && plainStr e.2) = true := by
      simp only [plainKey, List.all_cons, Bool.and_eq_true] at hp
      simp [hp.1.1, hp.1.2]
    simp only [Bool.and_eq_true] at hp1
    have hp' : plainKey (e2 :: rest) = true := by
      simp only [plainKey, List.all_cons, Bool.and_eq_true] at hp ⊢
      exact ⟨hp.2.1, hp.2.2⟩
    have ih := jsonEntriesChars_ascii (e2 :: rest) hp'
    simp only [jsonEntriesChars, List.mem_append, List.mem_cons] at hc
    rcases hc with hc | hc
    · exact jsonEntryChars_ascii e hp1.1 hp1.2 c hc
    rcases hc with rfl | hc
    · decide
    rcases hc with rfl | hc
    · decide
    · exact ih c hc

/-- All characters of `json.dumps` of a plain cursor are ASCII. -/
theorem jsonDumps_ascii (k : LastKey) (hp : plainKey k = true) :
    ∀ c ∈ (jsonDumpsKey k).toList, c.toNat < 128 := by
  intro c hc
  rw [show (jsonDumpsKey k).toList = '{' :: jsonEntriesChars k from rfl] at hc
  rcases List.mem_cons.mp hc with rfl | hc
  · decide
  · exact jsonEntriesChars_ascii k hp c hc

/-- Mapping a code point back to its character is the identity on lists. -/
theorem map_ofNat_toNat : ∀ l : List Char, l.map (fun c => Char.ofNat c.toNat) = l := by
  intro l
  induction l with
  | nil => rfl
  | cons c t ih => simp [char_ofNat_toNat, ih]

/-- The full token codec round-trips on every plain cursor. -/
theorem decodeToken_encodeToken (k : LastKey) (hp : plainKey k = true) :
    decodeToken (encodeToken k) = some k := by
  unfold decodeToken encodeToken
  have hascii := jsonDumps_ascii k hp
  have hb : ∀ b ∈ (jsonDumpsKey k).toList.map Char.toNat, b < 256 := by
    intro b hbm
    rcases List.mem_map.mp hbm with ⟨c, hc, rfl⟩
    have := hascii c hc
    omega
  rw [show (String.mk (b64encodeBytes ((jsonDumpsKey k).toList.map Char.toNat))).toList
      = b64encodeBytes ((jsonDumpsKey k).toList.map Char.toNat) from rfl]
  rw [b64decodeChars_encode _ hb]
  have hall : ((jsonDumpsKey k).toList.map Char.toNat).all (fun b => b < 128) = true := by
    rw [List.all_eq_true]
    intro b hbm
    rcases List.mem_map.mp hbm with ⟨c, hc, rfl⟩
    simpa using hascii c hc
  have hmaps : ((jsonDumpsKey k).toList.map Char.toNat).map Char.ofNat =
      (jsonDumpsKey k).toList := by
    rw [List.map_map]
    exact map_ofNat_toNat (jsonDumpsKey k).toList
  simp only [asciiDecode, hall, if_true, hmaps]
  rw [show String.mk (jsonDumpsKey k).toList = jsonDumpsKey k from rfl]
  exact jsonLoads_dump k hp

/-! ## Listing (`ImageService.list_images`, lines 167–236) -/

/-- One storage-layer page: fetched items plus the store's next-key. -/
structure DynamoPage where
  items : List DynamoRecord
  last_evaluated_key : Option LastKey
deriving DecidableEq, Repr

/-- The two query entry points of `DynamoDBClient` that `list_images`
dispatches to, abstracted as functions of their arguments (the backend's
paging behaviour is boto3's, outside the repository). -/
structure DynamoBackend where
  query_images_by_user : String → Nat → Option LastKey → DynamoPage
  list_images : Nat → Option LastKey → Option String → Option String → DynamoPage

/-- Result dict of `ImageService.list_images`. -/
inductive ListResult where
  | ok (images : List (List (String × PyVal))) (total_count : Nat)
      (next_page_token : Option String) (has_more : Bool)
  | failure (error : String)
deriving DecidableEq, Repr

/-- Token handling at the head of `list_images`: `if page_token:` — the
empty string is falsy and means "no token"; a non-empty token is
base64+json decoded and any failure is the invalid-token error (`none`
here). -/
def resolveToken : Option String → Option (Option LastKey)
  | none => some none
  | some t =>
    if t = "" then some none
    else
      match decodeToken t with
      | some key => some (some key)
      | none => none

/-- The storage dispatch of `list_images`: the owner-indexed query when
`user_id` is truthy, else the filtered scan (which receives the falsy
`user_id` unchanged, plus the tag filter). -/
def fetchPage (db : DynamoBackend) (limit : Nat) (lek : Option LastKey)
    (user_id tags : Option String) : DynamoPage :=
  match user_id with
  | some u =>
    if u ≠ "" then db.query_images_by_user u limit lek
    else db.list_images limit lek (some u) tags
  | none => db.list_images limit lek none tags

/-- Per-item response assembly of `list_images`: convert the item, build
the response model (which can raise a `ValidationError`, modelled as
`none`, on the stored `''` tags of a tag-less upload), attach the
presigned url when truthy, dump. -/
def buildImageResponse (presign : String → Option String)
    (img : DynamoRecord) : Option (List (String × PyVal)) :=
  let api_img := convert_dynamo_to_api_format img
  match ImageResponse.ofApi api_img with
  | none => none
  | some image_response =>
    let image_response :=
      match presign img.s3_key with
      | some url => if url = "" then image_response
          else { image_response with download_url := some url }
      | none => image_response
    some image_response.model_dump

/-- The response loop of `list_images`: an exception on any item aborts
the whole call (the loop body runs inside the blanket `try`). -/
def buildResponses (presign : String → Option String) :
    List DynamoRecord → Option (List (List (String × PyVal)))
  | [] => some []
  | img :: rest =>
    match buildImageResponse presign img with
    | none => none
    | some r =>
      match buildResponses presign rest with
      | none => none
      | some rs => some (r :: rs)

/-- `ImageService.list_images`: decode the page token, dispatch the query,
drop deleted items, attach urls, re-encode the next-key (itself under a
truthiness test, while `has_more` is an `is not None` test).  A
`ValidationError` in the response loop is caught by the blanket `except`
and becomes "Internal server error". -/
def ImageService.list_images (db : DynamoBackend) (presign : String → Option String)
    (limit : Nat) (page_token : Option String) (user_id tags : Option String) :
    ListResult :=
  match resolveToken page_token with
  | none => .failure "Invalid page token"
  | some lek =>
    let result := fetchPage db limit lek user_id tags
    let active_images := result.items.filter (fun img => !img.is_deleted)
    match buildResponses presign active_images with
    | none => .failure "Internal server error"
    | some image_responses =>
      let next_page_token :=
        match result.last_evaluated_key with
        | some key => if key.isEmpty then none else some (encodeToken key)
        | none => none
      .ok image_responses image_responses.length next_page_token
        result.last_evaluated_key.isSome

/-- The dumped response `list_images` produces for an item whose stored
tags string is truthy (so response construction succeeds). -/
def builtItem (presign : String → Option String) (img : DynamoRecord) :
    List (String × PyVal) :=
  let image_response : ImageResponse :=
    { image_id := img.image_id
      created_at := img.created_at
      user_id := img.user_id
      title := img.title
      description := img.description
      tags := some (if pyStrip img.tags = "" then [] else splitTags img.tags)
      file_name := img.file_name
      file_size := img.file_size
      content_type := img.content_type
      width := img.width
      height := img.height
      format := img.format }
  let image_response :=
    match presign img.s3_key with
    | some url => if url = "" then image_response
        else { image_response with download_url := some url }
    | none => image_response
  image_response.model_dump

/-- On an item with a truthy stored tags string, response assembly
succeeds and yields exactly `builtItem`. -/
theorem buildImageResponse_of_truthy_tags (presign : String → Option String)
    (img : DynamoRecord) (h : img.tags ≠ "") :
    buildImageResponse presign img = some (builtItem presign img) := by
  unfold buildImageResponse builtItem convert_dynamo_to_api_format convertTags
  rw [if_neg h]
  by_cases h2 : pyStrip img.tags = "" <;>
    simp [h2, ImageResponse.ofApi]

/-- When every item of the page has a truthy stored tags string, the loop
succeeds and returns the per-item dumps in order. -/
theorem buildResponses_of_truthy_tags (presign : String → Option String) :
    ∀ l : List DynamoRecord, (∀ img ∈ l, img.tags ≠ "") →
      buildResponses presign l = some (l.map (builtItem presign))
  | [], _ => rfl
  | img :: rest, h => by
    have ih := buildResponses_of_truthy_tags presign rest
      (fun x hx => h x (by simp [hx]))
    simp [buildResponses, buildImageResponse_of_truthy_tags presign img (h img (by simp)),
      ih]

/-- A live record written by a tag-less upload: the stored tags string is
the empty string. -/
def taglessLiveRecord : DynamoRecord :=
  { image_id := "img2"
    created_at := "2023-01-02T00:00:00"
    user_id := "user123"
    title := none
    description := none
    tags := ""
    file_name := "img2.jpg"
    file_size := 20000
    content_type := "image/jpeg"
    width := 300
    height := 300
    format := "jpeg"
    s3_key := "images/2023/01/img2.jpg"
    is_deleted := false
    updated_at := none }

/-- A backend whose page holds that one live tag-less record and no
next-key. -/
def taglessPageBackend : DynamoBackend :=
  { query_images_by_user := fun _ _ _ => ⟨[taglessLiveRecord], none⟩
    list_images := fun _ _ _ _ => ⟨[taglessLiveRecord], none⟩ }

/-- C3 (counterexample): a fetched page holding one live record stored by
a tag-less upload (tags `''`) makes the response-model construction raise,
so the call returns "Internal server error" — not the filtered page with
`has_more` that the claim asserts for every list call. -/
theorem c3_tagless_page_errors :
    ImageService.list_images taglessPageBackend (fun _ => none) 20 none none none =
        ListResult.failure "Internal server error" ∧
      ImageService.list_images taglessPageBackend (fun _ => none) 20 none none none ≠
        ListResult.ok [builtItem (fun _ => none) taglessLiveRecord] 1 none false := by
  constructor
  · rfl
  · decide

/-- C3 (amended): on every list call that passes token decoding *and whose
fetched page carries a truthy (non-empty) stored tags string on each live
record* — a tag-less upload stores `''` and makes the whole call fail with
"Internal server error" instead — the returned images are exactly the
fetched storage page with `is_deleted` items dropped after the fetch (and
nothing re-fetched to top the page up: the count is the filtered count,
which can be below `limit`), and `has_more` is true iff the store reported
a next-key, regardless of how many items survived the filter. -/
theorem c3_list_filter_after_fetch_amended (db : DynamoBackend)
    (presign : String → Option String) (limit : Nat) (page_token : Option String)
    (user_id tags : Option String) (lek : Option LastKey)
    (htok : resolveToken page_token = some lek)
    (htags : ∀ img ∈ (fetchPage db limit lek user_id tags).items,
      img.is_deleted = false → img.tags ≠ "") :
    ImageService.list_images db presign limit page_token user_id tags =
      ListResult.ok
        (((fetchPage db limit lek user_id tags).items.filter
            (fun img => !img.is_deleted)).map (builtItem presign))
        (((fetchPage db limit lek user_id tags).items.filter
            (fun img => !img.is_deleted)).length)
        (match (fetchPage db limit lek user_id tags).last_evaluated_key with
          | some key => if key.isEmpty then none else some (encodeToken key)
          | none => none)
        (fetchPage db limit lek user_id tags).last_evaluated_key.isSome := by
  unfold ImageService.list_images
  rw [htok]
  have hb := buildResponses_of_truthy_tags presign
    ((fetchPage db limit lek user_id tags).items.filter (fun img => !img.is_deleted))
    (by
      intro img hm
      have hmem := List.mem_filter.mp hm
      exact htags img hmem.1 (by simpa using hmem.2))
  simp [hb]

/-- A backend whose page holds one deleted record and reports a next-key. -/
def deletedPageBackend : DynamoBackend :=
  { query_images_by_user := fun _ _ _ =>
      ⟨[sampleDeletedRecord], some [("image_id", "img1")]⟩
    list_images := fun _ _ _ _ =>
      ⟨[sampleDeletedRecord], some [("image_id", "img1")]⟩ }

/-- Witness for C3 (amended): a page of one deleted item under `limit = 1`
yields zero live items yet `has_more = true` with a re-encoded token. -/
theorem c3_list_filter_after_fetch_amended_witness :
    ImageService.list_images deletedPageBackend (fun _ => none) 1 none none none =
      ListResult.ok [] 0 (some (encodeToken [("image_id", "img1")])) true := by
  rw [c3_list_filter_after_fetch_amended deletedPageBackend (fun _ => none) 1 none
    none none none rfl (by decide)]
  rfl

/-- C9: when the list call carries a (truthy) owner filter, the tag filter
is dead — the owner-indexed query path is taken and the tag argument is
never passed to it, so the result is identical to the same call without a
tag. -/
theorem c9_owner_filter_ignores_tag (db : DynamoBackend)
    (presign : String → Option String) (limit : Nat) (page_token : Option String)
    (u : String) (tags : Option String) (hu : u ≠ "") :
    ImageService.list_images db presign limit page_token (some u) tags =
      ImageService.list_images db presign limit page_token (some u) none := by
  unfold ImageService.list_images
  cases h : resolveToken page_token with
  | none => rfl
  | some lek => simp [fetchPage, hu]

/-- A backend returning distinct pages for the two dispatch paths, so the
witness instance is not vacuous. -/
def taggedScanBackend : DynamoBackend :=
  { query_images_by_user := fun _ _ _ => ⟨[sampleLiveRecord], none⟩
    list_images := fun _ _ _ tags =>
      match tags with
      | some _ => ⟨[], none⟩
      | none => ⟨[sampleDeletedRecord], none⟩ }

/-- Witness for C9: with owner `"user123"` and tag `"test"`, the result
equals the tag-less call. -/
theorem c9_owner_filter_ignores_tag_witness :
    ImageService.list_images taggedScanBackend (fun _ => none) 20 none
        (some "user123") (some "test") =
      ImageService.list_images taggedScanBackend (fun _ => none) 20 none
        (some "user123") none :=
  c9_owner_filter_ignores_tag taggedScanBackend (fun _ => none) 20 none
    "user123" (some "test") (by decide)

/-- A backend with one empty page and no next-key. -/
def emptyBackend : DynamoBackend :=
  { query_images_by_user := fun _ _ _ => ⟨[], none⟩
    list_images := fun _ _ _ _ => ⟨[], none⟩ }

/-- C4 (counterexample): the empty string is not produced by `encode`, yet
list does not fail closed on it — `if page_token:` treats `""` as the
absence of a token and the call succeeds. -/
theorem c4_empty_token_not_rejected :
    ImageService.list_images emptyBackend (fun _ => none) 20 (some "") none none =
        ListResult.ok [] 0 none false ∧
      ImageService.list_images emptyBackend (fun _ => none) 20 (some "") none none ≠
        ListResult.failure "Invalid page token" := by
  constructor
  · rfl
  · decide

/-- C4 (amended): the codec round-trips — `decode (encode k) = k` for every
cursor over the plain printable-ASCII alphabet (which covers every cursor
the store produces) — and a *non-empty* token whose base64/JSON decoding
fails makes the list call fail closed with "Invalid page token" (no crash);
the empty token, however, is treated as the absence of a token rather than
rejected. -/
theorem c4_token_codec_amended :
    (∀ k : LastKey, plainKey k = true → decodeToken (encodeToken k) = some k) ∧
      (∀ (db : DynamoBackend) (presign : String → Option String) (limit : Nat)
          (user_id tags : Option String) (t : String), t ≠ "" →
        decodeToken t = none →
        ImageService.list_images db presign limit (some t) user_id tags =
          ListResult.failure "Invalid page token") ∧
      (∀ (db : DynamoBackend) (presign : String → Option String) (limit : Nat)
          (user_id tags : Option String),
        ImageService.list_images db presign limit (some "") user_id tags =
          ImageService.list_images db presign limit none user_id tags) := by
  refine ⟨decodeToken_encodeToken, ?_, ?_⟩
  · intro db presign limit user_id tags t ht hdec
    unfold ImageService.list_images resolveToken
    simp [ht, hdec]
  · intro db presign limit user_id tags
    rfl

/-- Witness for C4 (amended): a realistic cursor round-trips, and the
garbage token `"####"` (base64-decodes to no bytes, so JSON decoding
fails) is rejected with "Invalid page token". -/
theorem c4_token_codec_amended_witness :
    decodeToken (encodeToken [("image_id", "img1"),
        ("created_at", "2023-01-01T00:00:00")]) =
      some [("image_id", "img1"), ("created_at", "2023-01-01T00:00:00")] ∧
    ImageService.list_images emptyBackend (fun _ => none) 20 (some "####")
        none none = ListResult.failure "Invalid page token" :=
  ⟨c4_token_codec_amended.1 _ (by decide),
    c4_token_codec_amended.2.1 emptyBackend (fun _ => none) 20 none none "####"
      (by decide) (by decide)⟩

/-! ## Tag round-trip (upload serialization vs read-path conversion) -/

/-- Splitting after joining with a separator-free group list recovers the
groups. -/
theorem pySplitCh_ne_nil (sep : Char) : ∀ cs : List Char, pySplitCh sep cs ≠ []
  | [] => by simp [pySplitCh]
  | c :: rest => by
    have ih := pySplitCh_ne_nil sep rest
    cases h : pySplitCh sep rest with
    | nil => exact absurd h ih
    | cons g gs =>
      simp only [pySplitCh, h]
      split <;> simp

/-- Splitting distributes over one separator occurrence after a
separator-free prefix. -/
theorem pySplitCh_append_sep (sep : Char) :
    ∀ (g t : List Char), (∀ c ∈ g, c ≠ sep) →
      pySplitCh sep (g ++ sep :: t) = g :: pySplitCh sep t := by
  intro g
  induction g with
  | nil =>
    intro t _
    cases h : pySplitCh sep t with
    | nil => exact absurd h (pySplitCh_ne_nil sep t)
    | cons x xs => simp [pySplitCh, h]
  | cons c g ih =>
    intro t hfree
    have hc : c ≠ sep := hfree c (by simp)
    have := ih t (fun d hd => hfree d (by simp [hd]))
    simp [pySplitCh, this, hc]

/-- Join-then-split round-trip on a non-empty list of separator-free
groups. -/
theorem pySplitCh_pyJoinCh (sep : Char) :
    ∀ gs : List (List Char), gs ≠ [] → (∀ g ∈ gs, ∀ c ∈ g, c ≠ sep) →
      pySplitCh sep (pyJoinCh sep gs) = gs
  | [], hne, _ => absurd rfl hne
  | [g], _, hfree => by
    simp only [pyJoinCh]
    exact pySplitCh_sep_free sep g (hfree g (by simp))
  | g :: g2 :: rest, _, hfree => by
    have ih := pySplitCh_pyJoinCh sep (g2 :: rest) (by simp)
      (fun x hx => hfree x (by simp at hx ⊢; tauto))
    have hg : ∀ c ∈ g, c ≠ sep := hfree g (by simp)
    show pySplitCh sep (g ++ sep :: pyJoinCh sep (g2 :: rest)) = g :: g2 :: rest
    rw [pySplitCh_append_sep sep g _ hg, ih]

/-- The strip of a character list is empty exactly when every character is
whitespace. -/
theorem stripList_eq_nil_iff (cs : List Char) :
    stripList cs = [] ↔ ∀ c ∈ cs, pyIsSpace c = true := by
  constructor
  · intro h c hc
    unfold stripList at h
    have h2 : (cs.dropWhile pyIsSpace).reverse.dropWhile pyIsSpace = [] := by
      have := congrArg List.reverse h
      simpa using this
    have hall2 : ∀ d ∈ (cs.dropWhile pyIsSpace).reverse, pyIsSpace d = true :=
      List.dropWhile_eq_nil_iff.mp h2
    have hall : ∀ d ∈ cs.dropWhile pyIsSpace, pyIsSpace d = true := by
      intro d hd
      exact hall2 d (List.mem_reverse.mpr hd)
    rw [← List.takeWhile_append_dropWhile (p := pyIsSpace) (l := cs)] at hc
    rcases List.mem_append.mp hc with hm | hm
    · exact List.mem_takeWhile_imp hm
    · exact hall c hm
  · intro h
    unfold stripList
    have h1 : cs.dropWhile pyIsSpace = [] := List.dropWhile_eq_nil_iff.mpr h
    simp [h1]

/-- `String.mk` yields the empty string only for the empty list. -/
theorem string_mk_eq_empty_iff (l : List Char) : String.mk l = "" ↔ l = [] := by
  constructor
  · intro h
    have := congrArg String.toList h
    simpa using this
  · intro h
    rw [h]

/-- Rebuilding each string from its characters is the identity. -/
theorem map_mk_toList : ∀ l : List String,
    l.map (fun t => String.mk t.toList) = l
  | [] => rfl
  | t :: rest => by
    rw [List.map_cons, map_mk_toList rest]
    rfl

/-- Stripping each element, restricted to elements that do not strip to
empty, is just stripping each element. -/
theorem filterMap_strip : ∀ ts : List String, (∀ t ∈ ts, pyStrip t ≠ "") →
    ts.filterMap (fun t => if pyStrip t = "" then none else some (pyStrip t)) =
      ts.map pyStrip
  | [], _ => rfl
  | t :: rest, h => by
    have ht : pyStrip t ≠ "" := h t (by simp)
    have ih := filterMap_strip rest (fun x hx => h x (by simp [hx]))
    simp [List.filterMap_cons, ht, ih]

/-- A list maps to itself under `pyStrip` exactly when every element is
already stripped. -/
theorem map_pyStrip_eq_self : ∀ ts : List String,
    ts.map pyStrip = ts ↔ ∀ t ∈ ts, pyStrip t = t
  | [] => by simp
  | t :: rest => by
    have ih := map_pyStrip_eq_self rest
    simp [ih]

/-- The per-tag checks passing gives the two per-tag facts used below. -/
theorem checkTags_facts : ∀ ts : List String,
    MetadataValidator.checkTags ts = VResult.valid →
    ∀ t ∈ ts, (pyStrip t).length ≠ 0 ∧ MetadataValidator.matchTagClass t = true
  | [], _ => by intro t ht; simp at ht
  | tag :: rest, h => by
    intro t ht
    unfold MetadataValidator.checkTags at h
    split_ifs at h with h1 h2 h3
    · have ih := checkTags_facts rest h
      rcases List.mem_cons.mp ht with rfl | hm
      · refine ⟨h1, ?_⟩
        simpa using h3
      · exact ih t hm

/-- Characters of a validated tag are never commas. -/
theorem tag_comma_free (t : String) (h : MetadataValidator.matchTagClass t = true) :
    ∀ c ∈ t.toList, c ≠ ',' := by
  intro c hc
  simp only [MetadataValidator.matchTagClass, Bool.and_eq_true] at h
  have hok := List.all_eq_true.mp h.2 c hc
  intro heq
  subst heq
  exact absurd hok (by decide)

/-- Reading back the upload's comma-join of a non-empty, comma-free,
non-blank tag list yields each tag stripped. -/
theorem splitTags_joinComma (ts : List String) (hne : ts ≠ [])
    (hfree : ∀ t ∈ ts, ∀ c ∈ t.toList, c ≠ ',')
    (hstrip : ∀ t ∈ ts, pyStrip t ≠ "") :
    splitTags (joinComma ts) = ts.map pyStrip := by
  unfold splitTags pySplit joinComma
  rw [show (String.mk (pyJoinCh ',' (ts.map String.toList))).toList
      = pyJoinCh ',' (ts.map String.toList) from rfl]
  rw [pySplitCh_pyJoinCh ',' (ts.map String.toList) (by simpa using hne)
      (by
        intro g hg c hc
        rcases List.mem_map.mp hg with ⟨t, ht, rfl⟩
        exact hfree t ht c hc)]
  rw [show (ts.map String.toList).map String.mk = ts from by
      rw [List.map_map]
      exact map_mk_toList ts]
  exact filterMap_strip ts hstrip

/-- The comma-join of a non-empty list of non-empty tags is non-empty. -/
theorem joinComma_ne_empty (t : String) (rest : List String) (ht : t ≠ "") :
    joinComma (t :: rest) ≠ "" := by
  intro h
  unfold joinComma at h
  rw [string_mk_eq_empty_iff] at h
  cases rest with
  | nil =>
    simp only [List.map_cons, List.map_nil, pyJoinCh] at h
    exact ht (by have := congrArg String.mk h; simpa using this)
  | cons r rs => simp [pyJoinCh] at h

/-- The comma-join of a tag list whose head does not strip to empty does
not strip to empty either. -/
theorem strip_joinComma_ne (t : String) (rest : List String)
    (hstrip₁ : pyStrip t ≠ "") : pyStrip (joinComma (t :: rest)) ≠ "" := by
  have hsl : stripList t.toList ≠ [] := by
    intro h
    exact hstrip₁ ((string_mk_eq_empty_iff _).mpr h)
  obtain ⟨c, hc, hcs⟩ : ∃ c ∈ t.toList, pyIsSpace c = false := by
    by_contra hall
    push_neg at hall
    apply hsl
    rw [stripList_eq_nil_iff]
    intro c hc
    rcases Bool.eq_false_or_eq_true (pyIsSpace c) with htr | hf
    · exact htr
    · exact absurd hf (hall c hc)
  have hcj : c ∈ pyJoinCh ',' ((t :: rest).map String.toList) := by
    cases rest with
    | nil => simpa [pyJoinCh] using hc
    | cons r rs =>
      simp only [List.map_cons, pyJoinCh, List.mem_append, List.mem_cons]
      exact Or.inl hc
  intro h
  have h' : stripList (pyJoinCh ',' ((t :: rest).map String.toList)) = [] := by
    have : pyStrip (joinComma (t :: rest)) =
        String.mk (stripList (pyJoinCh ',' ((t :: rest).map String.toList))) := rfl
    rw [this] at h
    exact (string_mk_eq_empty_iff _).mp h
  have := (stripList_eq_nil_iff _).mp h' c hcj
  rw [this] at hcs
  exact absurd hcs (by simp)

/-- Modelled from the spec claim: "a stored comma-joined tag string is read
back by splitting on commas, stripping whitespace from each segment, and
dropping empty segments" — the described read-back procedure, applied
unconditionally to the stored string (to be compared with the code's
`convertTags`, which special-cases the falsy empty string). -/
def specReadTags (s : String) : List String :=
  (pySplit ',' s).filterMap (fun t => if pyStrip t = "" then none else some (pyStrip t))

/-- C10 (counterexample): an upload with an empty tag list stores the
string `""`, and the read path does not apply the described
split/strip/drop procedure to it — the field stays the string `""` rather
than becoming the empty tag list. -/
theorem c10_empty_tags_not_split :
    serializeTags (some []) = "" ∧
      specReadTags "" = [] ∧
      convertTags "" ≠ TagsVal.list (specReadTags "") := by
  refine ⟨rfl, rfl, ?_⟩
  decide

/-- C10 (amended): for every *non-empty* validated uploaded tag list the
stored string is read back by split/strip/drop, so each tag returns with
surrounding whitespace removed; the round-trip is the identity exactly on
already-trimmed lists; a read never returns an empty tag from any stored
string; but an empty or absent upload list stores `""`, which the read
path leaves as the string `""` instead of the empty list. -/
theorem c10_tag_roundtrip_amended (ts : List String) (hne : ts ≠ [])
    (hval : MetadataValidator.validate_tags (some ts) = VResult.valid) :
    convertTags (serializeTags (some ts)) = TagsVal.list (ts.map pyStrip) ∧
      (∀ t ∈ ts.map pyStrip, t ≠ "") ∧
      (convertTags (serializeTags (some ts)) = TagsVal.list ts ↔
        ∀ t ∈ ts, pyStrip t = t) ∧
      (∀ (s : String) (l : List String), convertTags s = TagsVal.list l →
        ∀ t ∈ l, t ≠ "") ∧
      serializeTags (some []) = "" ∧ serializeTags none = "" ∧
      convertTags "" = TagsVal.str "" := by
  obtain ⟨t₁, rest, rfl⟩ : ∃ t₁ rest, ts = t₁ :: rest := by
    cases ts with
    | nil => exact absurd rfl hne
    | cons a b => exact ⟨a, b, rfl⟩
  have hcheck : MetadataValidator.checkTags (t₁ :: rest) = VResult.valid := by
    simp only [MetadataValidator.validate_tags] at hval
    split_ifs at hval with hlen
    exact hval
  have hfacts := checkTags_facts (t₁ :: rest) hcheck
  have hstrip : ∀ t ∈ t₁ :: rest, pyStrip t ≠ "" := by
    intro t ht
    have hlen := (hfacts t ht).1
    intro hempty
    apply hlen
    rw [hempty]
    rfl
  have hfree : ∀ t ∈ t₁ :: rest, ∀ c ∈ t.toList, c ≠ ',' := by
    intro t ht
    exact tag_comma_free t (hfacts t ht).2
  have hser : serializeTags (some (t₁ :: rest)) = joinComma (t₁ :: rest) := rfl
  have ht₁ : t₁ ≠ "" := by
    intro h
    apply hstrip t₁ (by simp)
    rw [h]
    rfl
  have hconv : convertTags (serializeTags (some (t₁ :: rest))) =
      TagsVal.list ((t₁ :: rest).map pyStrip) := by
    rw [hser]
    unfold convertTags
    rw [if_neg (joinComma_ne_empty t₁ rest ht₁),
      if_neg (strip_joinComma_ne t₁ rest (hstrip t₁ (by simp)))]
    rw [splitTags_joinComma (t₁ :: rest) (by simp) hfree hstrip]
  refine ⟨hconv, ?_, ?_, ?_, rfl, rfl, by decide⟩
  · intro t ht
    rcases List.mem_map.mp ht with ⟨x, hx, rfl⟩
    exact hstrip x hx
  · rw [hconv]
    constructor
    · intro h
      have hinj : (t₁ :: rest).map pyStrip = t₁ :: rest := by
        injection h
      exact (map_pyStrip_eq_self (t₁ :: rest)).mp hinj
    · intro h
      rw [(map_pyStrip_eq_self (t₁ :: rest)).mpr h]
  · intro s l hconv' t ht
    unfold convertTags at hconv'
    by_cases hs1 : s = ""
    · rw [if_pos hs1] at hconv'
      exact absurd hconv' (by simp)
    rw [if_neg hs1] at hconv'
    by_cases hs2 : pyStrip s = ""
    · rw [if_pos hs2] at hconv'
      have hl : ([] : List String) = l := by injection hconv'
      rw [← hl] at ht
      simp at ht
    rw [if_neg hs2] at hconv'
    have hl : splitTags s = l := by injection hconv'
    rw [← hl] at ht
    unfold splitTags at ht
    rcases List.mem_filterMap.mp ht with ⟨a, _, ha⟩
    by_cases hstrip_a : pyStrip a = ""
    · rw [if_pos hstrip_a] at ha
      exact Option.noConfusion ha
    · rw [if_neg hstrip_a] at ha
      have hta := Option.some.inj ha
      rw [← hta]
      exact hstrip_a

/-- Witness for C10 (amended): the uploaded tags `[" a", "b "]` are read
back trimmed as `["a", "b"]`. -/
theorem c10_tag_roundtrip_amended_witness :
    convertTags (serializeTags (some [" a", "b "])) = TagsVal.list ["a", "b"] :=
  ((c10_tag_roundtrip_amended [" a", "b "] (by decide) (by decide)).1).trans (by decide)
